import Mathlib

/-!
Shallow embedding of FerrisFocus (`src/src/main.rs`), a Pomodoro timer.

Time is modelled in nanoseconds as `Nat`: a Rust `Duration` or the distance
between two `Instant`s becomes a total nanosecond count, `as_secs()` becomes
division by `nsPerSec`, and `Instant::elapsed` (which never goes negative)
becomes truncated `Nat` subtraction.  The `f32` progress value is modelled
exactly in `ℚ`: every value the program produces (`1 - remaining/duration`
with both operands whole numbers of nanoseconds) is determined by the exact
rational; the claims about it (0, 1/2, 1, membership in [0,1]) are about
exactly representable values.

The `update` frame of `eframe::App` is split into its timer-relevant parts,
in the order the Rust code executes them:
  * `displayStep`   — lines 108–143: the (minutes, seconds) computation,
    including the boundary-crossing mutation at lines 117–133;
  * `startPauseClick` / `resetClick` — lines 149–169: the button handlers;
  * `progressOf`    — lines 174–188: the progress-bar computation, which
    runs on the state *after* `displayStep` (and any button handling);
  * `playEndSound`  — lines 35–45 together with lines 192–195: the audio
    sink interaction, modelled by the number of queued tones.
`PomodoroApp.tick` is a frame with no button click: `displayStep` followed
by `progressOf` on the resulting state, which is exactly what the spec calls
`tick(now)`.
-/

namespace FerrisFocus

/-- Nanoseconds per second: `Duration` arithmetic is done in nanoseconds. -/
def nsPerSec : Nat := 1000000000

/-- `Duration::as_secs` on a nanosecond count: whole seconds, truncated. -/
def secsOf (d : Nat) : Nat := d / nsPerSec

/-- The timer-relevant fields of `struct PomodoroApp` (`main.rs` lines 5–15).
The audio `sink`/`_stream` fields are modelled separately (see `SinkReach`),
since they carry no timer state. -/
structure PomodoroApp where
  start_time : Option Nat
  work_duration : Nat
  pause_duration : Nat
  current_duration : Nat
  timer_running : Bool
  is_work_period : Bool
  timer_ended : Bool
deriving Repr, DecidableEq

/-- `PomodoroApp::new` (`main.rs` lines 18–33): 25 min work, 5 min break,
current interval = work, stopped, work period, not ended. -/
def PomodoroApp.new : PomodoroApp where
  start_time := none
  work_duration := 25 * 60 * nsPerSec
  pause_duration := 5 * 60 * nsPerSec
  current_duration := 25 * 60 * nsPerSec
  timer_running := false
  is_work_period := true
  timer_ended := false

/-- Lines 108–143 of `update`: compute the displayed (minutes, seconds) and
perform the boundary-crossing mutation.  When the timer is running with a
start time, `elapsed = now - start_time`, `remaining = current_duration -
elapsed` clamped at zero; if the whole-second part of `remaining` is zero the
code stops the timer (`timer_running = false`), sets `timer_ended`, swaps the
period and its duration, and sets `start_time = now` (line 132 calls
`Instant::now()`, the same frame instant).  The displayed pair is derived
from `remaining` *before* the switch.  When not running, the full
`current_duration` is displayed. -/
def displayStep (s : PomodoroApp) (now : Nat) : PomodoroApp × Nat × Nat :=
  if s.timer_running then
    match s.start_time with
    | some t0 =>
      let elapsed := now - t0
      let remaining := if s.current_duration > elapsed then s.current_duration - elapsed else 0
      let s1 :=
        if secsOf remaining = 0 then
          let s2 := { s with timer_running := false, timer_ended := true }
          let s3 :=
            if s2.is_work_period then
              { s2 with current_duration := s2.pause_duration, is_work_period := false }
            else
              { s2 with current_duration := s2.work_duration, is_work_period := true }
          { s3 with start_time := some now }
        else s
      (s1, secsOf remaining / 60, secsOf remaining % 60)
    | none => (s, 0, 0)
  else
    (s, secsOf s.current_duration / 60, secsOf s.current_duration % 60)

/-- Lines 174–188 of `update`: the progress-bar value.  `total_elapsed` is
`start_time.unwrap_or_else(Instant::now).elapsed()` when running (hence `0`
when `start_time` is `none`) and `0` otherwise; `remaining` is clamped at
zero; progress is `1 - remaining/current_duration` as long as
`current_duration.as_secs() > 0`, else `0`. -/
def progressOf (s : PomodoroApp) (now : Nat) : ℚ :=
  let total_elapsed :=
    if s.timer_running then
      match s.start_time with
      | some t0 => now - t0
      | none => 0
    else 0
  let remaining := if s.current_duration > total_elapsed then s.current_duration - total_elapsed else 0
  if secsOf s.current_duration > 0 then
    1 - (remaining : ℚ) / (s.current_duration : ℚ)
  else 0

/-- What one `tick(now)` frame returns: the mutated state and the displayed
minutes, seconds and progress fraction. -/
structure TickResult where
  state : PomodoroApp
  minutes : Nat
  seconds : Nat
  progress : ℚ
deriving Repr

/-- One frame of `update` with no button click: the display/boundary step
(lines 108–143) followed by the progress computation (lines 174–188) on the
resulting state.  This is the spec's `tick(now)`. -/
def PomodoroApp.tick (s : PomodoroApp) (now : Nat) : TickResult :=
  let d := displayStep s now
  { state := d.1, minutes := d.2.1, seconds := d.2.2, progress := progressOf d.1 now }

/-- The Start/Pause button handler (`main.rs` lines 149–159): while running
it only clears `timer_running`; while stopped it sets `timer_running`,
records `start_time = now` and clears `timer_ended`. -/
def startPauseClick (s : PomodoroApp) (now : Nat) : PomodoroApp :=
  if s.timer_running then
    { s with timer_running := false }
  else
    { s with timer_running := true, start_time := some now, timer_ended := false }

/-- The spec's `start()`: the Start/Pause button pressed while stopped; a
no-op while running (the button reads "Pause" then). -/
def PomodoroApp.start (s : PomodoroApp) (now : Nat) : PomodoroApp :=
  if s.timer_running then s
  else { s with timer_running := true, start_time := some now, timer_ended := false }

/-- The spec's `pause()`: the Start/Pause button pressed while running; a
no-op while stopped.  Note the Rust code clears only `timer_running` — it
neither clears `start_time` nor banks any elapsed time. -/
def PomodoroApp.pause (s : PomodoroApp) : PomodoroApp :=
  if s.timer_running then { s with timer_running := false } else s

/-- The Reset button handler (`main.rs` lines 164–169): stops the timer,
clears `start_time` and `timer_ended`, and restores
`current_duration = work_duration`.  It does not touch `is_work_period`. -/
def PomodoroApp.reset (s : PomodoroApp) : PomodoroApp :=
  { s with
    timer_running := false
    start_time := none
    current_duration := s.work_duration
    timer_ended := false }

/-- The remaining time (in nanoseconds) that the display computation of a
frame entered with state `s` at instant `now` is based on:
`max(current_duration - elapsed, 0)` with
`elapsed = (running ? now - start_time : 0)`. -/
def remEntry (s : PomodoroApp) (now : Nat) : Nat :=
  let elapsed :=
    if s.timer_running then
      match s.start_time with
      | some t0 => now - t0
      | none => 0
    else 0
  if s.current_duration > elapsed then s.current_duration - elapsed else 0

/-- The states reachable from `PomodoroApp.new` by any sequence of the three
user actions and frame ticks, at arbitrary instants. -/
inductive Reachable : PomodoroApp → Prop where
  | init : Reachable PomodoroApp.new
  | start {s : PomodoroApp} (now : Nat) : Reachable s → Reachable (s.start now)
  | pause {s : PomodoroApp} : Reachable s → Reachable s.pause
  | reset {s : PomodoroApp} : Reachable s → Reachable s.reset
  | tick {s : PomodoroApp} (now : Nat) : Reachable s → Reachable (s.tick now).state

/-! ### Case equations for the frame computations -/

theorem secsOf_eq_zero_iff (d : Nat) : secsOf d = 0 ↔ d < nsPerSec := by
  exact Nat.div_eq_zero_iff (by decide)

theorem secsOf_pos_le (d : Nat) (h : 0 < secsOf d) : nsPerSec ≤ d := by
  by_contra hc
  rw [Nat.not_le] at hc
  rw [(secsOf_eq_zero_iff d).mpr hc] at h
  exact Nat.lt_irrefl 0 h

theorem tick_state (s : PomodoroApp) (now : Nat) :
    (s.tick now).state = (displayStep s now).1 := rfl

theorem remEntry_stopped (s : PomodoroApp) (now : Nat) (h : s.timer_running = false) :
    remEntry s now = s.current_duration := by
  simp only [remEntry, h, if_false, Bool.false_eq_true]
  split <;> omega

theorem remEntry_run (s : PomodoroApp) (now t0 : Nat)
    (hr : s.timer_running = true) (ht : s.start_time = some t0) :
    remEntry s now =
      if s.current_duration > now - t0 then s.current_duration - (now - t0) else 0 := by
  simp [remEntry, hr, ht]

theorem displayStep_stopped (s : PomodoroApp) (now : Nat) (h : s.timer_running = false) :
    displayStep s now =
      (s, secsOf s.current_duration / 60, secsOf s.current_duration % 60) := by
  simp [displayStep, h]

theorem displayStep_run (s : PomodoroApp) (now t0 : Nat)
    (hr : s.timer_running = true) (ht : s.start_time = some t0)
    (hb : secsOf (remEntry s now) ≠ 0) :
    displayStep s now =
      (s, secsOf (remEntry s now) / 60, secsOf (remEntry s now) % 60) := by
  rw [remEntry_run s now t0 hr ht] at hb ⊢
  simp [displayStep, hr, ht, hb]

theorem displayStep_boundary (s : PomodoroApp) (now t0 : Nat)
    (hr : s.timer_running = true) (ht : s.start_time = some t0)
    (hb : secsOf (remEntry s now) = 0) :
    displayStep s now =
      ({ s with
          timer_running := false
          timer_ended := true
          current_duration := if s.is_work_period then s.pause_duration else s.work_duration
          is_work_period := !s.is_work_period
          start_time := some now }, 0, 0) := by
  rw [remEntry_run s now t0 hr ht] at hb
  cases hw : s.is_work_period <;> simp [displayStep, hr, ht, hb, hw]

theorem remEntry_le (s : PomodoroApp) (now : Nat) :
    remEntry s now ≤ s.current_duration := by
  simp only [remEntry]
  split <;> (split <;> omega)

/-- The progress computation, written in terms of `remEntry`: the
`total_elapsed`/`remaining` it derives are the same expressions. -/
theorem progressOf_eq (s : PomodoroApp) (now : Nat) :
    progressOf s now =
      if secsOf s.current_duration > 0 then
        1 - (remEntry s now : ℚ) / (s.current_duration : ℚ)
      else 0 := rfl

theorem current_duration_cast_pos (s : PomodoroApp)
    (hc : 0 < secsOf s.current_duration) : (0 : ℚ) < (s.current_duration : ℚ) := by
  have hns : nsPerSec ≤ s.current_duration := secsOf_pos_le _ hc
  have h0 : 0 < nsPerSec := by decide
  exact_mod_cast (by omega : 0 < s.current_duration)

theorem progressOf_stopped (s : PomodoroApp) (now : Nat) (h : s.timer_running = false) :
    progressOf s now = 0 := by
  rw [progressOf_eq, remEntry_stopped s now h]
  split
  case isTrue hc =>
    rw [div_self (ne_of_gt (current_duration_cast_pos s hc))]
    ring
  case isFalse => rfl

theorem progressOf_of_pos (s : PomodoroApp) (now : Nat)
    (hc : 0 < secsOf s.current_duration) :
    progressOf s now = 1 - (remEntry s now : ℚ) / (s.current_duration : ℚ) := by
  rw [progressOf_eq, if_pos hc]

theorem progressOf_nonneg (s : PomodoroApp) (now : Nat) : 0 ≤ progressOf s now := by
  rw [progressOf_eq]
  split
  case isTrue hc =>
    have hcd := current_duration_cast_pos s hc
    have hle : (remEntry s now : ℚ) / (s.current_duration : ℚ) ≤ 1 := by
      rw [div_le_one hcd]
      exact_mod_cast remEntry_le s now
    linarith
  case isFalse => exact le_refl 0

theorem progressOf_le_one (s : PomodoroApp) (now : Nat) : progressOf s now ≤ 1 := by
  rw [progressOf_eq]
  split
  case isTrue hc =>
    have hcd := current_duration_cast_pos s hc
    have hge : (0 : ℚ) ≤ (remEntry s now : ℚ) / (s.current_duration : ℚ) :=
      div_nonneg (Nat.cast_nonneg _) (le_of_lt hcd)
    linarith
  case isFalse => exact zero_le_one

/-! ### The reachability invariant -/

/-- The structural facts every reachable state satisfies: the configured
durations are the constants of `PomodoroApp::new`, `current_duration` is one
of them, a running timer has a start time, and a running timer is not in the
"ended" display state. -/
def GoodState (s : PomodoroApp) : Prop :=
  s.work_duration = 1500 * nsPerSec ∧
  s.pause_duration = 300 * nsPerSec ∧
  (s.current_duration = 1500 * nsPerSec ∨ s.current_duration = 300 * nsPerSec) ∧
  (s.timer_running = true → s.start_time.isSome = true) ∧
  (s.timer_running = true → s.timer_ended = false)

theorem reachable_goodState {s : PomodoroApp} (h : Reachable s) : GoodState s := by
  induction h with
  | init =>
    refine ⟨by decide, by decide, Or.inl (by decide), ?_, ?_⟩ <;>
      (intro hh; cases hh)
  | start now h ih =>
    obtain ⟨h1, h2, h3, h4, h5⟩ := ih
    unfold PomodoroApp.start
    split
    case isTrue => exact ⟨h1, h2, h3, h4, h5⟩
    case isFalse => exact ⟨h1, h2, h3, fun _ => rfl, fun _ => rfl⟩
  | pause h ih =>
    obtain ⟨h1, h2, h3, h4, h5⟩ := ih
    unfold PomodoroApp.pause
    split
    case isTrue =>
      exact ⟨h1, h2, h3, fun hh => Bool.noConfusion hh, fun hh => Bool.noConfusion hh⟩
    case isFalse => exact ⟨h1, h2, h3, h4, h5⟩
  | reset h ih =>
    obtain ⟨h1, h2, h3, h4, h5⟩ := ih
    exact ⟨h1, h2, Or.inl h1, fun hh => Bool.noConfusion hh, fun hh => Bool.noConfusion hh⟩
  | tick now h ih =>
    obtain ⟨h1, h2, h3, h4, h5⟩ := ih
    rename_i s'
    rw [tick_state]
    by_cases hr : s'.timer_running = true
    · obtain ⟨t0, ht⟩ := Option.isSome_iff_exists.mp (h4 hr)
      by_cases hb : secsOf (remEntry s' now) = 0
      · rw [displayStep_boundary s' now t0 hr ht hb]
        refine ⟨h1, h2, ?_, fun hh => Bool.noConfusion hh, fun hh => Bool.noConfusion hh⟩
        split
        · exact Or.inr h2
        · exact Or.inl h1
      · rw [displayStep_run s' now t0 hr ht hb]
        exact ⟨h1, h2, h3, h4, h5⟩
    · rw [displayStep_stopped s' now (Bool.not_eq_true _ ▸ hr)]
      exact ⟨h1, h2, h3, h4, h5⟩

theorem tick_minutes (s : PomodoroApp) (now : Nat) :
    (s.tick now).minutes = (displayStep s now).2.1 := rfl

theorem tick_seconds (s : PomodoroApp) (now : Nat) :
    (s.tick now).seconds = (displayStep s now).2.2 := rfl

theorem tick_progress (s : PomodoroApp) (now : Nat) :
    (s.tick now).progress = progressOf (s.tick now).state now := rfl

/-! ### The claims -/

/-- C1.  At an interval boundary (`remaining.as_secs() == 0` while running)
the code does set `timer_ended`, swap the period, install the other
interval's duration and set `start_time = now` — but it also sets
`timer_running = false` (line 119), so the new interval does **not** begin
with the timer still running: a new `start()` is required.  Evaluated at the
failing input: default app, `start()` at t = 0, `tick` at t = 1500 s. -/
theorem c1_boundary_leaves_timer_stopped :
    ((PomodoroApp.new.start 0).tick (1500 * nsPerSec)).state.timer_ended = true ∧
    ((PomodoroApp.new.start 0).tick (1500 * nsPerSec)).state.is_work_period = false ∧
    ((PomodoroApp.new.start 0).tick (1500 * nsPerSec)).state.current_duration = 300 * nsPerSec ∧
    ((PomodoroApp.new.start 0).tick (1500 * nsPerSec)).state.start_time = some (1500 * nsPerSec) ∧
    ((PomodoroApp.new.start 0).tick (1500 * nsPerSec)).state.timer_running = false := by
  decide

/-- C2, counterexample.  `pause` (lines 150–152) clears only
`timer_running`, never `start_time`: after `start()` at 0 and `pause()` the
state is reachable, not running, and still has `started_at` set — neither
disjunct of the claimed "exactly one of" holds. -/
theorem c2_pause_keeps_start_time :
    Reachable ((PomodoroApp.new.start 0).pause) ∧
    ((PomodoroApp.new.start 0).pause).timer_running = false ∧
    ((PomodoroApp.new.start 0).pause).start_time = some 0 :=
  ⟨Reachable.pause (Reachable.start 0 Reachable.init), by decide, by decide⟩

/-- C2, amended.  In every reachable state, a running timer has
`started_at` set; the converse direction of the claimed invariant fails
(after `pause` or a boundary crossing the timer is stopped with
`started_at` still set). -/
theorem c2_running_has_start_time {s : PomodoroApp} (h : Reachable s)
    (hr : s.timer_running = true) : s.start_time.isSome = true :=
  (reachable_goodState h).2.2.2.1 hr

theorem c2_running_has_start_time_witness :
    (PomodoroApp.new.start 0).start_time.isSome = true :=
  c2_running_has_start_time (Reachable.start 0 Reachable.init) (by decide)

/-- C4, counterexample.  The Reset handler (lines 164–169) does not touch
`is_work_period`: resetting the reachable state obtained by running the
work interval to its boundary (which switched to the break period) leaves
`is_work_period = false`, not `true` as claimed. -/
theorem c4_reset_keeps_break_period :
    Reachable (((PomodoroApp.new.start 0).tick (1500 * nsPerSec)).state.reset) ∧
    (((PomodoroApp.new.start 0).tick (1500 * nsPerSec)).state.reset).is_work_period = false :=
  ⟨Reachable.reset (Reachable.tick (1500 * nsPerSec) (Reachable.start 0 Reachable.init)),
    by decide⟩

/-- C4, amended.  From any state, `reset` sets `running = false`, clears
`started_at` and `ended`, and restores `current_duration = work_duration`;
it always succeeds, but it leaves `is_work_period` unchanged rather than
setting it to `true`. -/
theorem c4_reset_effect (s : PomodoroApp) :
    (s.reset).timer_running = false ∧
    (s.reset).start_time = none ∧
    (s.reset).current_duration = s.work_duration ∧
    (s.reset).timer_ended = false ∧
    (s.reset).is_work_period = s.is_work_period :=
  ⟨rfl, rfl, rfl, rfl, rfl⟩

/-- C9.  The boundary test is `remaining.as_secs() == 0`, so it fires as
soon as strictly less than one full second remains: whenever the timer is
running and `now - started_at` has not yet reached `current_duration` but is
within one second of it, `tick` sets `ended` and performs the period
switch — up to one second before the interval has fully elapsed. -/
theorem c9_subsecond_boundary (s : PomodoroApp) (now t0 : Nat)
    (hr : s.timer_running = true) (ht : s.start_time = some t0)
    (_h0 : t0 ≤ now)
    (hlt : now - t0 < s.current_duration)
    (hsub : s.current_duration - (now - t0) < nsPerSec) :
    (s.tick now).state.timer_ended = true ∧
    (s.tick now).state.is_work_period = !s.is_work_period ∧
    (s.tick now).state.current_duration =
      (if s.is_work_period then s.pause_duration else s.work_duration) := by
  have hb : secsOf (remEntry s now) = 0 := by
    rw [remEntry_run s now t0 hr ht, if_pos hlt, secsOf_eq_zero_iff]
    exact hsub
  rw [tick_state, displayStep_boundary s now t0 hr ht hb]
  exact ⟨rfl, rfl, rfl⟩

theorem c9_subsecond_boundary_witness :
    ((PomodoroApp.new.start 0).tick (1499 * nsPerSec + 1)).state.timer_ended = true ∧
    ((PomodoroApp.new.start 0).tick (1499 * nsPerSec + 1)).state.is_work_period =
      !(PomodoroApp.new.start 0).is_work_period ∧
    ((PomodoroApp.new.start 0).tick (1499 * nsPerSec + 1)).state.current_duration =
      (if (PomodoroApp.new.start 0).is_work_period then
        (PomodoroApp.new.start 0).pause_duration
      else (PomodoroApp.new.start 0).work_duration) :=
  c9_subsecond_boundary (PomodoroApp.new.start 0) (1499 * nsPerSec + 1) 0
    (by decide) (by decide) (by decide) (by decide) (by decide)

/-- C10.  Whenever the timer is not running, a tick mutates nothing,
displays the whole-second part of the full `current_duration` as the
remaining time, and reports progress 0 (the progress computation takes
`total_elapsed = 0` for a stopped timer). -/
theorem c10_stopped_full_display (s : PomodoroApp) (now : Nat)
    (h : s.timer_running = false) :
    (s.tick now).state = s ∧
    (s.tick now).minutes = secsOf s.current_duration / 60 ∧
    (s.tick now).seconds = secsOf s.current_duration % 60 ∧
    (s.tick now).progress = 0 := by
  have hd := displayStep_stopped s now h
  refine ⟨?_, ?_, ?_, ?_⟩
  · rw [tick_state, hd]
  · rw [tick_minutes, hd]
  · rw [tick_seconds, hd]
  · rw [tick_progress, tick_state, hd]
    exact progressOf_stopped s now h

theorem c10_stopped_full_display_witness :
    (PomodoroApp.new.tick 5).state = PomodoroApp.new ∧
    (PomodoroApp.new.tick 5).minutes = secsOf PomodoroApp.new.current_duration / 60 ∧
    (PomodoroApp.new.tick 5).seconds = secsOf PomodoroApp.new.current_duration % 60 ∧
    (PomodoroApp.new.tick 5).progress = 0 :=
  c10_stopped_full_display PomodoroApp.new 5 (by decide)

/-- C7.  `ended` lifecycle on any reachable state: a tick sets it at the
instant the whole-second remaining time reaches zero while running; an
explicit start clears it (while running the Start action is a no-op, and a
reachable running state already has `ended = false`); reset clears it; and
no other operation clears it — `pause` preserves it and a tick never turns
it off. -/
theorem c7_ended_lifecycle (s : PomodoroApp) (now : Nat) (h : Reachable s) :
    (s.timer_running = true → secsOf (remEntry s now) = 0 →
      (s.tick now).state.timer_ended = true) ∧
    ((s.start now).timer_ended = false) ∧
    ((s.reset).timer_ended = false) ∧
    ((s.pause).timer_ended = s.timer_ended) ∧
    (s.timer_ended = true → (s.tick now).state.timer_ended = true) := by
  obtain ⟨_h1, _h2, _h3, h4, h5⟩ := reachable_goodState h
  refine ⟨?_, ?_, rfl, ?_, ?_⟩
  · intro hr hb
    obtain ⟨t0, ht⟩ := Option.isSome_iff_exists.mp (h4 hr)
    rw [tick_state, displayStep_boundary s now t0 hr ht hb]
  · unfold PomodoroApp.start
    split
    case isTrue hrr => exact h5 hrr
    case isFalse => rfl
  · unfold PomodoroApp.pause
    split <;> rfl
  · intro he
    by_cases hr : s.timer_running = true
    · obtain ⟨t0, ht⟩ := Option.isSome_iff_exists.mp (h4 hr)
      by_cases hb : secsOf (remEntry s now) = 0
      · rw [tick_state, displayStep_boundary s now t0 hr ht hb]
      · rw [tick_state, displayStep_run s now t0 hr ht hb]
        exact he
    · rw [tick_state, displayStep_stopped s now (Bool.not_eq_true _ ▸ hr)]
      exact he

theorem c7_ended_lifecycle_witness :
    ((PomodoroApp.new.start 0).timer_running = true →
      secsOf (remEntry (PomodoroApp.new.start 0) (1500 * nsPerSec)) = 0 →
      ((PomodoroApp.new.start 0).tick (1500 * nsPerSec)).state.timer_ended = true) ∧
    (((PomodoroApp.new.start 0).start (1500 * nsPerSec)).timer_ended = false) ∧
    (((PomodoroApp.new.start 0).reset).timer_ended = false) ∧
    (((PomodoroApp.new.start 0).pause).timer_ended = (PomodoroApp.new.start 0).timer_ended) ∧
    ((PomodoroApp.new.start 0).timer_ended = true →
      ((PomodoroApp.new.start 0).tick (1500 * nsPerSec)).state.timer_ended = true) :=
  c7_ended_lifecycle (PomodoroApp.new.start 0) (1500 * nsPerSec)
    (Reachable.start 0 Reachable.init)

/-! ### The audio sink (claim C8)

`play_end_sound` (`main.rs` lines 35–45) appends one tone to the sink only
when `sink.empty()`, and the frame (lines 192–195) calls it only when
`timer_ended`.  The sink is modelled by the number of tones it currently
holds; the device may finish (drain) a tone between frames. -/

/-- `play_end_sound`: append one tone if and only if the sink is empty. -/
def playEndSound (queued : Nat) : Nat :=
  if queued = 0 then queued + 1 else queued

/-- One frame's audio interaction (lines 192–195): the tone is played only
when the end-of-interval alert is pending (`timer_ended` of the frame's
state). -/
def frameSound (ended : Bool) (queued : Nat) : Nat :=
  if ended then playEndSound queued else queued

/-- Sink transitions: a frame runs (with whatever value `timer_ended` has
then), or the device finishes playing a tone. -/
inductive SinkStep : Nat → Nat → Prop where
  | frame (ended : Bool) (q : Nat) : SinkStep q (frameSound ended q)
  | drain (q : Nat) : SinkStep q (q - 1)

/-- Sink occupancies reachable from the initially empty sink. -/
inductive SinkReach : Nat → Prop where
  | init : SinkReach 0
  | step {q q' : Nat} : SinkReach q → SinkStep q q' → SinkReach q'

theorem sinkReach_le_one {q : Nat} (h : SinkReach q) : q ≤ 1 := by
  induction h with
  | init => exact Nat.zero_le 1
  | step _ hs ih =>
    cases hs with
    | frame ended q =>
      unfold frameSound playEndSound
      split
      · split <;> omega
      · exact ih
    | drain q => omega

/-- C8.  Starting from an empty sink, after any frame on any reachable sink
occupancy at most one tone is queued (tones never overlap), and a frame
enqueues a tone only when the alert is pending (`ended = true`) and the sink
was idle (empty). -/
theorem c8_no_overlapping_tones (q : Nat) (ended : Bool) (h : SinkReach q) :
    frameSound ended q ≤ 1 ∧
    (frameSound ended q ≠ q → ended = true ∧ q = 0) := by
  have hq : q ≤ 1 := sinkReach_le_one h
  constructor
  · exact sinkReach_le_one (SinkReach.step h (SinkStep.frame ended q))
  · intro hne
    unfold frameSound playEndSound at hne
    cases ended with
    | false => exact absurd rfl hne
    | true =>
      refine ⟨rfl, ?_⟩
      by_cases h0 : q = 0
      · exact h0
      · rw [if_pos rfl, if_neg h0] at hne
        exact absurd rfl hne

theorem c8_no_overlapping_tones_witness :
    frameSound true 0 ≤ 1 ∧ (frameSound true 0 ≠ 0 → true = true ∧ 0 = 0) :=
  c8_no_overlapping_tones 0 true SinkReach.init

theorem remEntry_secs_ne_zero (s : PomodoroApp) (now t0 : Nat)
    (hr : s.timer_running = true) (ht : s.start_time = some t0)
    (hnb : now - t0 + nsPerSec ≤ s.current_duration) :
    ¬ secsOf (remEntry s now) = 0 := by
  rw [remEntry_run s now t0 hr ht]
  have h0 : (0 : Nat) < nsPerSec := by decide
  have hgt : s.current_duration > now - t0 := by omega
  rw [if_pos hgt, secsOf_eq_zero_iff]
  omega

theorem tick_state_of_run (s : PomodoroApp) (now t0 : Nat)
    (hr : s.timer_running = true) (ht : s.start_time = some t0)
    (hb : ¬ secsOf (remEntry s now) = 0) :
    (s.tick now).state = s := by
  rw [tick_state, displayStep_run s now t0 hr ht hb]

/-- C3, counterexample.  With `work_duration = 1500 s`: `start()` at
`t0 = 0`, `tick(t1 = 600 s)`, `pause()`, `start()` at `t2 = 600 s`,
`tick(t3 = 700 s)` displays 23:20 — the interval restarted from scratch at
`t2` — while a single uninterrupted run of duration
`(t1-t0)+(t3-t2) = 700 s` displays 13:20.  The claimed conservation fails
because the code keeps no `accumulated_elapsed`. -/
theorem c3_pause_resume_not_conserving :
    (((((PomodoroApp.new.start 0).tick (600 * nsPerSec)).state.pause).start
        (600 * nsPerSec)).tick (700 * nsPerSec)).minutes = 23 ∧
    (((((PomodoroApp.new.start 0).tick (600 * nsPerSec)).state.pause).start
        (600 * nsPerSec)).tick (700 * nsPerSec)).seconds = 20 ∧
    ((PomodoroApp.new.start 0).tick (700 * nsPerSec)).minutes = 13 ∧
    ((PomodoroApp.new.start 0).tick (700 * nsPerSec)).seconds = 20 ∧
    (((((PomodoroApp.new.start 0).tick (600 * nsPerSec)).state.pause).start
        (600 * nsPerSec)).tick (700 * nsPerSec)).minutes ≠
      ((PomodoroApp.new.start 0).tick (700 * nsPerSec)).minutes := by
  decide

/-- C3, amended.  `pause` discards the elapsed time of the paused segment
(there is no `accumulated_elapsed` in the code): the sequence `start()` at
`t0`, `tick(t1)` (no boundary reached), `pause()`, `start()` at `t2`,
`tick(t3)` behaves exactly like a single uninterrupted run of duration
`t3 - t2` — the time before the pause is lost. -/
theorem c3_pause_discards_elapsed (s : PomodoroApp) (t0 t1 t2 t3 : Nat)
    (hrun : s.timer_running = false)
    (_h01 : t0 ≤ t1) (_h12 : t1 ≤ t2) (_h23 : t2 ≤ t3)
    (hnb : t1 - t0 + nsPerSec ≤ s.current_duration) :
    ((((s.start t0).tick t1).state.pause).start t2).tick t3 = (s.start t2).tick t3 := by
  have hstart0 : s.start t0 =
      { s with timer_running := true, start_time := some t0, timer_ended := false } := by
    unfold PomodoroApp.start
    rw [if_neg (by simp [hrun])]
  have htick : ((s.start t0).tick t1).state = s.start t0 := by
    apply tick_state_of_run _ t1 t0
    · rw [hstart0]
    · rw [hstart0]
    · apply remEntry_secs_ne_zero _ t1 t0
      · rw [hstart0]
      · rw [hstart0]
      · rw [hstart0]
        exact hnb
  have hkey : (((s.start t0).tick t1).state.pause).start t2 = s.start t2 := by
    rw [htick, hstart0]
    unfold PomodoroApp.pause PomodoroApp.start
    simp [hrun]
  rw [hkey]

theorem c3_pause_discards_elapsed_witness :
    ((((PomodoroApp.new.start 0).tick (600 * nsPerSec)).state.pause).start
        (600 * nsPerSec)).tick (700 * nsPerSec) =
      (PomodoroApp.new.start (600 * nsPerSec)).tick (700 * nsPerSec) :=
  c3_pause_discards_elapsed PomodoroApp.new 0 (600 * nsPerSec) (600 * nsPerSec)
    (700 * nsPerSec) (by decide) (by decide) (by decide) (by decide) (by decide)

/-- C5, counterexample.  In the `work_duration = 1500 s` scenario, the tick
at t = 1500 s crosses the boundary *before* the progress bar is computed:
the boundary handler stops the timer and installs the break duration, so the
frame's progress is 0, not the claimed 1.0. -/
theorem c5_final_progress_not_one :
    ¬ ((((PomodoroApp.new.start 0).tick 0).state.tick (750 * nsPerSec)).state.tick
        (1500 * nsPerSec)).progress = 1 := by
  have hA : ((PomodoroApp.new.start 0).tick 0).state = PomodoroApp.new.start 0 := by decide
  have hB : ((PomodoroApp.new.start 0).tick (750 * nsPerSec)).state =
      PomodoroApp.new.start 0 := by decide
  rw [hA, hB, tick_progress, progressOf_stopped _ _ (by decide)]
  norm_num

/-- C5, amended.  `work_duration = 1500 s`, `start()` at t = 0:
`tick(0)` → (25,0) with progress 0; `tick(750 s)` → (12,30) with progress
1/2; `tick(1500 s)` → (0,0) with `ended = true` — but the frame's progress
is 0, not 1.0, because the boundary handler stops the timer and switches to
the break duration before the progress bar is computed. -/
theorem c5_scenario :
    ((PomodoroApp.new.start 0).tick 0).minutes = 25 ∧
    ((PomodoroApp.new.start 0).tick 0).seconds = 0 ∧
    ((PomodoroApp.new.start 0).tick 0).progress = 0 ∧
    (((PomodoroApp.new.start 0).tick 0).state.tick (750 * nsPerSec)).minutes = 12 ∧
    (((PomodoroApp.new.start 0).tick 0).state.tick (750 * nsPerSec)).seconds = 30 ∧
    (((PomodoroApp.new.start 0).tick 0).state.tick (750 * nsPerSec)).progress = 1/2 ∧
    ((((PomodoroApp.new.start 0).tick 0).state.tick (750 * nsPerSec)).state.tick
        (1500 * nsPerSec)).minutes = 0 ∧
    ((((PomodoroApp.new.start 0).tick 0).state.tick (750 * nsPerSec)).state.tick
        (1500 * nsPerSec)).seconds = 0 ∧
    ((((PomodoroApp.new.start 0).tick 0).state.tick (750 * nsPerSec)).state.tick
        (1500 * nsPerSec)).state.timer_ended = true ∧
    ((((PomodoroApp.new.start 0).tick 0).state.tick (750 * nsPerSec)).state.tick
        (1500 * nsPerSec)).progress = 0 := by
  have hA : ((PomodoroApp.new.start 0).tick 0).state = PomodoroApp.new.start 0 := by decide
  have hB : ((PomodoroApp.new.start 0).tick (750 * nsPerSec)).state =
      PomodoroApp.new.start 0 := by decide
  have hp0 : ((PomodoroApp.new.start 0).tick 0).progress = 0 := by
    rw [tick_progress, hA, progressOf_of_pos _ _ (by decide)]
    rw [show remEntry (PomodoroApp.new.start 0) 0 = 1500 * nsPerSec from by decide]
    rw [show (PomodoroApp.new.start 0).current_duration = 1500 * nsPerSec from by decide]
    norm_num [nsPerSec]
  have hp750 : (((PomodoroApp.new.start 0).tick 0).state.tick (750 * nsPerSec)).progress
      = 1/2 := by
    rw [hA, tick_progress, hB, progressOf_of_pos _ _ (by decide)]
    rw [show remEntry (PomodoroApp.new.start 0) (750 * nsPerSec) = 750 * nsPerSec from by decide]
    rw [show (PomodoroApp.new.start 0).current_duration = 1500 * nsPerSec from by decide]
    norm_num [nsPerSec]
  have hp1500 : ((((PomodoroApp.new.start 0).tick 0).state.tick (750 * nsPerSec)).state.tick
      (1500 * nsPerSec)).progress = 0 := by
    rw [hA, hB, tick_progress]
    exact progressOf_stopped _ _ (by decide)
  exact ⟨by decide, by decide, hp0, by decide, by decide, hp750, by decide, by decide,
    by decide, hp1500⟩

/-- C6, counterexample.  The progress value is *not* always
`1 - remaining/current_duration` for the `remaining` that produced the
(minutes, seconds) display: at a boundary frame (here `start()` at 0,
`tick(1501 s)`) the display derives from `remaining = 0`, so the claimed
formula gives 1, but the frame's progress — computed after the boundary
mutation stopped the timer and switched the duration — is 0. -/
theorem c6_boundary_progress_mismatch :
    remEntry (PomodoroApp.new.start 0) (1501 * nsPerSec) = 0 ∧
    ((PomodoroApp.new.start 0).tick (1501 * nsPerSec)).minutes = 0 ∧
    ((PomodoroApp.new.start 0).tick (1501 * nsPerSec)).seconds = 0 ∧
    ¬ (((PomodoroApp.new.start 0).tick (1501 * nsPerSec)).progress =
        1 - (remEntry (PomodoroApp.new.start 0) (1501 * nsPerSec) : ℚ) /
          ((PomodoroApp.new.start 0).current_duration : ℚ)) := by
  refine ⟨by decide, by decide, by decide, ?_⟩
  rw [tick_progress, progressOf_stopped _ _ (by decide)]
  rw [show remEntry (PomodoroApp.new.start 0) (1501 * nsPerSec) = 0 from by decide]
  rw [show (PomodoroApp.new.start 0).current_duration = 1500 * nsPerSec from by decide]
  norm_num [nsPerSec]

/-- C6, amended.  For every reachable state, `tick(now)` displays
`minutes = remaining div 60` and `seconds = remaining mod 60` for
`remaining = max(current_duration - elapsed, 0)` in whole seconds
(`elapsed = now - started_at` when running, else 0), and its progress always
lies in [0,1]; on every non-boundary frame the progress moreover equals
`1 - remaining/current_duration`.  (On a boundary frame the progress is
instead computed from the post-switch state; and in reachable states
`current_duration` is never zero, so the `current_duration == 0` guard of
the claim is vacuous.) -/
theorem c6_display_and_progress (s : PomodoroApp) (now : Nat) (h : Reachable s) :
    (s.tick now).minutes = secsOf (remEntry s now) / 60 ∧
    (s.tick now).seconds = secsOf (remEntry s now) % 60 ∧
    0 ≤ (s.tick now).progress ∧
    (s.tick now).progress ≤ 1 ∧
    (¬ (s.timer_running = true ∧ secsOf (remEntry s now) = 0) →
      (s.tick now).progress = 1 - (remEntry s now : ℚ) / (s.current_duration : ℚ)) := by
  obtain ⟨_h1, _h2, h3, h4, _h5⟩ := reachable_goodState h
  have hcpos : 0 < secsOf s.current_duration := by
    rcases h3 with hc | hc <;> rw [hc] <;> decide
  have hbounds : 0 ≤ (s.tick now).progress ∧ (s.tick now).progress ≤ 1 := by
    rw [tick_progress]
    exact ⟨progressOf_nonneg _ _, progressOf_le_one _ _⟩
  by_cases hr : s.timer_running = true
  · obtain ⟨t0, ht⟩ := Option.isSome_iff_exists.mp (h4 hr)
    by_cases hb : secsOf (remEntry s now) = 0
    · refine ⟨?_, ?_, hbounds.1, hbounds.2, ?_⟩
      · rw [tick_minutes, displayStep_boundary s now t0 hr ht hb, hb]
      · rw [tick_seconds, displayStep_boundary s now t0 hr ht hb, hb]
      · intro hno
        exact absurd ⟨hr, hb⟩ hno
    · have hstate : (s.tick now).state = s := tick_state_of_run s now t0 hr ht hb
      refine ⟨?_, ?_, hbounds.1, hbounds.2, ?_⟩
      · rw [tick_minutes, displayStep_run s now t0 hr ht hb]
      · rw [tick_seconds, displayStep_run s now t0 hr ht hb]
      · intro _
        rw [tick_progress, hstate]
        exact progressOf_of_pos s now hcpos
  · have hrf : s.timer_running = false := Bool.not_eq_true _ ▸ hr
    have hre := remEntry_stopped s now hrf
    refine ⟨?_, ?_, hbounds.1, hbounds.2, ?_⟩
    · rw [tick_minutes, displayStep_stopped s now hrf, hre]
    · rw [tick_seconds, displayStep_stopped s now hrf, hre]
    · intro _
      rw [tick_progress, tick_state, displayStep_stopped s now hrf]
      rw [progressOf_stopped s now hrf, hre]
      rw [div_self (ne_of_gt (current_duration_cast_pos s hcpos))]
      norm_num

theorem c6_display_and_progress_witness :
    (PomodoroApp.new.tick 0).minutes = secsOf (remEntry PomodoroApp.new 0) / 60 ∧
    (PomodoroApp.new.tick 0).seconds = secsOf (remEntry PomodoroApp.new 0) % 60 ∧
    0 ≤ (PomodoroApp.new.tick 0).progress ∧
    (PomodoroApp.new.tick 0).progress ≤ 1 ∧
    (¬ (PomodoroApp.new.timer_running = true ∧ secsOf (remEntry PomodoroApp.new 0) = 0) →
      (PomodoroApp.new.tick 0).progress =
        1 - (remEntry PomodoroApp.new 0 : ℚ) / (PomodoroApp.new.current_duration : ℚ)) :=
  c6_display_and_progress PomodoroApp.new 0 Reachable.init

end FerrisFocus
